import Mathlib

/-!
Verification of the feedback-encyclopedia service: a shallow embedding of
the CSV normalization (src/app/api/feedback/route.ts GET and the POST
ranking handler), the ranking pipeline around the external service call,
and the presentation-layer retrieval facade (src/app/page.tsx).
-/

namespace FeedbackEnc

/-- A raw CSV row after `Papa.parse` with `header: true`.  Fields name the
CSV columns the handlers read: `daebunryu` = 대분류, `munjejeom` = 문제점,
`solutionV1` = 솔루션 (버전1), `solutionLegacy` = 솔루션,
`solutionV2` = 솔루션 (버전2).  A column absent from the sheet surfaces in
JS as `undefined`, which `||` treats exactly like the empty string, so a
missing column is embedded as `""`. -/
structure RawRow where
  daebunryu : String
  munjejeom : String
  solutionV1 : String
  solutionLegacy : String
  solutionV2 : String
deriving DecidableEq, Repr

/-- A normalized feedback entry.  The POST ranking path stamps
`id := some index` (route line `id: index`); the GET listing path builds
objects with no `id` key at all, embedded as `id := none`. -/
structure FeedbackEntry where
  id : Option Nat
  category : String
  problem : String
  solution1 : String
  solution2 : String
deriving DecidableEq, Repr

/-- JS `x || d` on strings: the empty string is falsy, everything else
truthy. -/
def orElse (x d : String) : String :=
  if x = "" then d else x

/-- The row filter `item.problem && (item.solution1 || item.solution2)`
from both handlers, as a Bool of string truthiness. -/
def keep (e : FeedbackEntry) : Bool :=
  (!(e.problem == "")) && ((!(e.solution1 == "")) || (!(e.solution2 == "")))

/-- Column mapping of the GET handler (route.ts lines 19-24): no `id`
field is produced. -/
def normalizeRowGet (r : RawRow) : FeedbackEntry :=
  { id := none
    category := orElse r.daebunryu "기타"
    problem := orElse r.munjejeom ""
    solution1 := orElse r.solutionV1 (orElse r.solutionLegacy "")
    solution2 := orElse r.solutionV2 "" }

/-- Column mapping of the POST ranking handler (part_000 lines 38-44):
identical to the GET mapping except `id := some index`, the ordinal of
the row in the raw parsed sequence. -/
def normalizeRowPost (idx : Nat) (r : RawRow) : FeedbackEntry :=
  { id := some idx
    category := orElse r.daebunryu "기타"
    problem := orElse r.munjejeom ""
    solution1 := orElse r.solutionV1 (orElse r.solutionLegacy "")
    solution2 := orElse r.solutionV2 "" }

/-- GET normalization: map the column mapping over the rows, then drop
rows failing the `keep` predicate. -/
def normalizeGet (rows : List RawRow) : List FeedbackEntry :=
  (rows.map normalizeRowGet).filter keep

/-- POST normalization: ids are assigned from the raw (pre-filter) row
index, then failing rows are dropped, leaving gaps in the ids. -/
def normalizePost (rows : List RawRow) : List FeedbackEntry :=
  (rows.enum.map (fun p => normalizeRowPost p.1 p.2)).filter keep

/-- Deletes every occurrence of `pat` (leftmost, non-overlapping) from the
character list, as JS global-regex replace with the empty replacement.
Structural on `fuel`; `fuel = cs.length` is always enough because each
step consumes at least one character. -/
def stripAllFuel (fuel : Nat) (pat : List Char) (cs : List Char) : List Char :=
  match fuel, cs with
  | 0, cs => cs
  | _ + 1, [] => []
  | fuel + 1, c :: rest =>
    if pat.isPrefixOf (c :: rest) && !pat.isEmpty then
      stripAllFuel fuel pat ((c :: rest).drop pat.length)
    else
      c :: stripAllFuel fuel pat rest

/-- JS `text.replace(pat-as-global-regex, "")` for a literal pattern. -/
def stripAll (pat : List Char) (cs : List Char) : List Char :=
  stripAllFuel cs.length pat cs

/-- JS `String.prototype.trim`: whitespace removed from both ends. -/
def trimChars (cs : List Char) : List Char :=
  ((cs.dropWhile Char.isWhitespace).reverse.dropWhile Char.isWhitespace).reverse

/-- Step 3 of the POST handler (part_000 lines 81-83): strip every
"```json" fence marker, then every bare "```" marker, trim, and if the
result still starts with a bare literal "json", drop those four
characters and trim again. -/
def cleanText (s : String) : String :=
  let t := trimChars (stripAll ("```".data) (stripAll ("```json".data) s.data))
  let t := if ("json".data).isPrefixOf t then trimChars (t.drop 4) else t
  String.mk t

/-- Folds decimal digits into a natural number. -/
def digitsToNat (ds : List Char) : Nat :=
  ds.foldl (fun a c => a * 10 + (c.toNat - 48)) 0

/-- Whether a digit run is a valid JSON integer numeral: non-empty and
without a leading zero (only "0" itself may start with 0), as
`JSON.parse` requires. -/
def jsonIntDigitsOk (ds : List Char) : Bool :=
  match ds with
  | [] => false
  | '0' :: _ :: _ => false
  | _ => true

/-- Parses a JSON integer numeral (optional minus sign, then digits, no
leading zero) from the front of the character list, returning the value
and the rest. -/
def parseInt (cs : List Char) : Option (Int × List Char) :=
  match cs with
  | '-' :: rest =>
    let p := rest.span Char.isDigit
    if jsonIntDigitsOk p.1 then some (-(digitsToNat p.1 : Int), p.2) else none
  | _ =>
    let p := cs.span Char.isDigit
    if jsonIntDigitsOk p.1 then some ((digitsToNat p.1 : Int), p.2) else none

/-- Parses the remainder of a JSON integer array after the opening
bracket, positioned at an element: `int (ws ',' ws int)* ws ']' ws`.
Structural on `fuel`. -/
def parseElems (fuel : Nat) (acc : List Int) (cs : List Char) : Option (List Int) :=
  match fuel with
  | 0 => none
  | fuel + 1 =>
    match parseInt cs with
    | none => none
    | some (n, rest) =>
      match rest.dropWhile Char.isWhitespace with
      | ']' :: tail =>
        if (tail.dropWhile Char.isWhitespace).isEmpty then some (acc ++ [n]) else none
      | ',' :: tail => parseElems fuel (acc ++ [n]) (tail.dropWhile Char.isWhitespace)
      | _ => none

/-- The restriction of `JSON.parse` to the integer-array responses:
`some ids` exactly when the text is a strict JSON array of integer
numerals.  On every other text it is `none`; such texts are outside this
restricted model, which is used only by claims that quantify over
integer-array responses — the unrestricted parse, with every JSON shape
and the handler's exact behavior on each, is `parseJson` and
`postHandlerJ` below. -/
def parseIntArray (s : String) : Option (List Int) :=
  match s.data.dropWhile Char.isWhitespace with
  | '[' :: rest =>
    match rest.dropWhile Char.isWhitespace with
    | ']' :: tail =>
      if (tail.dropWhile Char.isWhitespace).isEmpty then some [] else none
    | body => parseElems (body.length + 1) [] body
  | _ => none

/-- JS strict equality `item.id === id` between the entry id (a number, or
absent on the GET shape) and a parsed JSON number. -/
def idMatches (e : FeedbackEntry) (i : Int) : Bool :=
  match e.id with
  | none => false
  | some n => (n : Int) == i

/-- Step 4 of the POST handler (part_000 lines 97-99):
`sortedIds.map(id => data.find(item => item.id === id)).filter(Boolean)`.
`find` returning `undefined` for an unknown id is `none`, removed by
`filter(Boolean)`; hence `filterMap`. -/
def sortedData (ids : List Int) (data : List FeedbackEntry) : List FeedbackEntry :=
  ids.filterMap (fun i => data.find? (fun item => idMatches item i))

/-- A JSON value as produced by JS `JSON.parse`: null, a boolean, a
number (an exact rational, since every JSON numeral the handler can
meet denotes one), a string, an array, or an object. -/
inductive Json where
  | null
  | bool (b : Bool)
  | num (q : Rat)
  | str (s : String)
  | arr (elems : List Json)
  | obj (members : List (String × Json))

/-- The opening brace character, by code point. -/
def braceOpen : Char := Char.ofNat 123

/-- The closing brace character, by code point. -/
def braceClose : Char := Char.ofNat 125

/-- The value of a hexadecimal digit, if the character is one. -/
def hexVal (c : Char) : Option Nat :=
  if c.isDigit then some (c.toNat - 48)
  else if 'a' ≤ c ∧ c ≤ 'f' then some (c.toNat - 87)
  else if 'A' ≤ c ∧ c ≤ 'F' then some (c.toNat - 55)
  else none

/-- Parses the body of a JSON string after the opening quote: ordinary
characters, the escapes `JSON.parse` accepts (and only those), and a
rejection of raw control characters, exactly as `JSON.parse` does.
Structural on `fuel`. -/
def parseJString : Nat → List Char → List Char → Option (String × List Char)
  | 0, _, _ => none
  | _ + 1, _, [] => none
  | fuel + 1, acc, c :: r =>
    if c = '"' then some (String.mk acc.reverse, r)
    else if c = '\\' then
      match r with
      | '"' :: r2 => parseJString fuel ('"' :: acc) r2
      | '\\' :: r2 => parseJString fuel ('\\' :: acc) r2
      | '/' :: r2 => parseJString fuel ('/' :: acc) r2
      | 'b' :: r2 => parseJString fuel (Char.ofNat 8 :: acc) r2
      | 'f' :: r2 => parseJString fuel (Char.ofNat 12 :: acc) r2
      | 'n' :: r2 => parseJString fuel ('\n' :: acc) r2
      | 'r' :: r2 => parseJString fuel ('\r' :: acc) r2
      | 't' :: r2 => parseJString fuel ('\t' :: acc) r2
      | 'u' :: h1 :: h2 :: h3 :: h4 :: r2 =>
        match hexVal h1, hexVal h2, hexVal h3, hexVal h4 with
        | some a, some b, some c2, some d =>
          parseJString fuel (Char.ofNat (((a * 16 + b) * 16 + c2) * 16 + d) :: acc) r2
        | _, _, _, _ => none
      | _ => none
    else if c.toNat < 32 then none
    else parseJString fuel (c :: acc) r

/-- Parses the fraction and exponent of a JSON numeral after its integer
digits, returning the exact rational value: the JSON grammar
`('.' digit+)? ([eE] [+-]? digit+)?`, with `JSON.parse` strictness (a
dot or exponent mark must be followed by at least one digit). -/
def parseFracExp (neg : Bool) (intDs : List Char) (cs : List Char) :
    Option (Rat × List Char) :=
  let fr : Option (List Char × List Char) :=
    match cs with
    | '.' :: r =>
      let q := r.span Char.isDigit
      if q.1.isEmpty then none else some (q.1, q.2)
    | _ => some ([], cs)
  match fr with
  | none => none
  | some (fracDs, cs2) =>
    let ex : Option (Int × List Char) :=
      match cs2 with
      | c :: r =>
        if c = 'e' ∨ c = 'E' then
          match r with
          | '+' :: r2 =>
            let q := r2.span Char.isDigit
            if q.1.isEmpty then none else some ((digitsToNat q.1 : Int), q.2)
          | '-' :: r2 =>
            let q := r2.span Char.isDigit
            if q.1.isEmpty then none else some (-(digitsToNat q.1 : Int), q.2)
          | _ =>
            let q := r.span Char.isDigit
            if q.1.isEmpty then none else some ((digitsToNat q.1 : Int), q.2)
        else some (0, cs2)
      | [] => some (0, [])
    match ex with
    | none => none
    | some (e, cs3) =>
      let base : Nat := digitsToNat (intDs ++ fracDs)
      let e2 : Int := e - fracDs.length
      let mag : Rat :=
        if 0 ≤ e2 then (base : Rat) * (10 : Rat) ^ e2.toNat
        else (base : Rat) / (10 : Rat) ^ (-e2).toNat
      some (if neg then -mag else mag, cs3)

/-- Parses a JSON numeral: optional minus, then `0` or a digit run with
no leading zero (exactly the numerals `JSON.parse` accepts, so "01" is
refused), then fraction and exponent. -/
def parseJNumber (cs : List Char) : Option (Rat × List Char) :=
  let p : Bool × List Char :=
    match cs with
    | '-' :: r => (true, r)
    | _ => (false, cs)
  match p.2 with
  | c :: r =>
    if c = '0' then
      match r with
      | d :: _ => if d.isDigit then none else parseFracExp p.1 ['0'] r
      | [] => parseFracExp p.1 ['0'] []
    else if c.isDigit then
      let q := r.span Char.isDigit
      parseFracExp p.1 (c :: q.1) q.2
    else none
  | [] => none

/-- Parses the elements of a non-empty JSON array after the opening
bracket, with `pv` parsing one value: `value (ws ',' value)* ws ']'`.
Structural on `fuel`. -/
def parseListRest (pv : List Char → Option (Json × List Char)) :
    Nat → List Json → List Char → Option (List Json × List Char)
  | 0, _, _ => none
  | fuel + 1, acc, cs =>
    match pv cs with
    | none => none
    | some (v, rest) =>
      match rest.dropWhile Char.isWhitespace with
      | ']' :: r2 => some (acc ++ [v], r2)
      | ',' :: r2 => parseListRest pv fuel (acc ++ [v]) r2
      | _ => none

/-- Parses the members of a non-empty JSON object after the opening
brace, with `pv` parsing one value: `ws string ws ':' value`, separated
by commas, closed by the closing brace.  Structural on `fuel`. -/
def parseMembersRest (pv : List Char → Option (Json × List Char)) :
    Nat → List (String × Json) → List Char → Option (List (String × Json) × List Char)
  | 0, _, _ => none
  | fuel + 1, acc, cs =>
    match cs.dropWhile Char.isWhitespace with
    | '"' :: r =>
      match parseJString (r.length + 1) [] r with
      | none => none
      | some (key, r2) =>
        match r2.dropWhile Char.isWhitespace with
        | ':' :: r3 =>
          match pv r3 with
          | none => none
          | some (v, r4) =>
            match r4.dropWhile Char.isWhitespace with
            | c :: r5 =>
              if c = braceClose then some (acc ++ [(key, v)], r5)
              else if c = ',' then parseMembersRest pv fuel (acc ++ [(key, v)]) r5
              else none
            | [] => none
        | _ => none
    | _ => none

/-- Parses one JSON value after skipping leading whitespace (space, tab,
CR, LF — exactly the whitespace `JSON.parse` skips), returning it and
the unconsumed rest.  Structural on `fuel`; one unit of fuel per nesting
level suffices. -/
def parseValue : Nat → List Char → Option (Json × List Char)
  | 0, _ => none
  | fuel + 1, cs =>
    match cs.dropWhile Char.isWhitespace with
    | 'n' :: 'u' :: 'l' :: 'l' :: r => some (.null, r)
    | 't' :: 'r' :: 'u' :: 'e' :: r => some (.bool true, r)
    | 'f' :: 'a' :: 'l' :: 's' :: 'e' :: r => some (.bool false, r)
    | '"' :: r => (parseJString (r.length + 1) [] r).map (fun p => (.str p.1, p.2))
    | '[' :: r =>
      match r.dropWhile Char.isWhitespace with
      | ']' :: r2 => some (.arr [], r2)
      | _ => (parseListRest (parseValue fuel) (r.length + 1) [] r).map
          (fun p => (.arr p.1, p.2))
    | c :: r =>
      if c = braceOpen then
        match r.dropWhile Char.isWhitespace with
        | c2 :: r2 =>
          if c2 = braceClose then some (.obj [], r2)
          else (parseMembersRest (parseValue fuel) (r.length + 1) [] r).map
            (fun p => (.obj p.1, p.2))
        | [] => none
      else (parseJNumber (c :: r)).map (fun p => (.num p.1, p.2))
    | [] => none

/-- JS `JSON.parse`: one JSON value and nothing but trailing whitespace
after it; `none` models a thrown `SyntaxError`. -/
def parseJson (s : String) : Option Json :=
  match parseValue (s.length + 1) s.data with
  | some (v, rest) =>
    if (rest.dropWhile Char.isWhitespace).isEmpty then some v else none
  | none => none

/-- JS strict equality `item.id === id` where `id` is an arbitrary
parsed JSON value: true exactly when the entry has an id and the value
is a number equal to it (so `1.0 === 1` matches while a string, bool,
null, array or object never does).  The parser only builds reduced
rationals, so the comparison reads the normal form. -/
def idMatchesJ (e : FeedbackEntry) (v : Json) : Bool :=
  match e.id, v with
  | some n, Json.num q => q.num == (n : Int) && q.den == 1
  | _, _ => false

/-- Step 4 of the POST handler over an arbitrary parsed JSON array:
elements matching no corpus id (non-numbers, or numbers matching no
entry) come back as `undefined` from `find` and are dropped by
`filter(Boolean)`. -/
def sortedDataJ (elems : List Json) (data : List FeedbackEntry) : List FeedbackEntry :=
  elems.filterMap (fun v => data.find? (fun item => idMatchesJ item v))

/-- Outcome of the POST ranking endpoint: the ranked entries (HTTP 200),
the client fault for a falsy query (400 "Query is required"), the
distinguishable not-configured status (503 "API Key missing on server"),
or the generic server fault every thrown error is caught into
(500 "Internal Server Error"). -/
inductive PostResponse where
  | ok (entries : List FeedbackEntry)
  | clientFault
  | notConfigured
  | serverFault
deriving DecidableEq, Repr

/-- The POST handler of part_000 with its environment made explicit, and
paired with a flag recording whether the external ranking service was
invoked.  `query` is the body's query string (a missing or null query is
falsy in JS exactly like `""`, so both embed as `""`); `hasKey` is
whether `GEMINI_API_KEY` is set; `csvRows` is `none` when the source
fetch fails (not-ok status or thrown error) and otherwise the parsed raw
rows; `serviceText` is `none` when `generateContent` throws and
otherwise the raw response text.  Control flow follows the source: query
check, key check, fetch, service call (unconditionally, there is no
empty-corpus guard), sanitize, parse, `sortedData`; every `throw` lands
in the catch-all 500.  The parse step here is the integer-array
restriction `parseIntArray`, adequate for the claims that quantify over
integer-array responses; `postHandlerJ` below is the same handler with
the parse step at full `JSON.parse` fidelity. -/
def postHandlerT (query : String) (hasKey : Bool) (csvRows : Option (List RawRow))
    (serviceText : Option String) : PostResponse × Bool :=
  if query == "" then (.clientFault, false)
  else if !hasKey then (.notConfigured, false)
  else
    match csvRows with
    | none => (.serverFault, false)
    | some rows =>
      match serviceText with
      | none => (.serverFault, true)
      | some txt =>
        match parseIntArray (cleanText txt) with
        | none => (.serverFault, true)
        | some ids => (.ok (sortedData ids (normalizePost rows)), true)

/-- The POST handler's response, forgetting the service-call flag. -/
def postHandler (query : String) (hasKey : Bool) (csvRows : Option (List RawRow))
    (serviceText : Option String) : PostResponse :=
  (postHandlerT query hasKey csvRows serviceText).1

/-- The POST handler with its parse step at full `JSON.parse` fidelity.
`JSON.parse` throwing (invalid JSON) lands in the catch-all 500; a
parsed non-array value makes `sortedIds.map` throw a `TypeError`, also
caught into the 500; but any parsed array — whatever its element
types — reaches `sortedDataJ` and is returned with status 200, its
unmatched elements silently dropped. -/
def postHandlerJ (query : String) (hasKey : Bool) (csvRows : Option (List RawRow))
    (serviceText : Option String) : PostResponse × Bool :=
  if query == "" then (.clientFault, false)
  else if !hasKey then (.notConfigured, false)
  else
    match csvRows with
    | none => (.serverFault, false)
    | some rows =>
      match serviceText with
      | none => (.serverFault, true)
      | some txt =>
        match parseJson (cleanText txt) with
        | none => (.serverFault, true)
        | some (Json.arr elems) => (.ok (sortedDataJ elems (normalizePost rows)), true)
        | some _ => (.serverFault, true)

/-- Lowercases every character, as JS `toLowerCase` on the strings the
filter compares. -/
def lowerStr (s : String) : String :=
  String.mk (s.data.map Char.toLower)

/-- Whether `needle` occurs contiguously in `hay`, as JS
`String.prototype.includes`. -/
def containsSub (hay needle : List Char) : Bool :=
  match hay with
  | [] => needle.isEmpty
  | _ :: rest => needle.isPrefixOf hay || containsSub rest needle

/-- JS `a.includes(b)`. -/
def includes (a b : String) : Bool :=
  containsSub a.data b.data

/-- The substring arm of the standard filter (page.tsx lines 58-62):
problem, solution1, solution2 (guarded by its truthiness) or category
contains the query, case-insensitively. -/
def matchesSearch (q : String) (item : FeedbackEntry) : Bool :=
  includes (lowerStr item.problem) (lowerStr q)
  || includes (lowerStr item.solution1) (lowerStr q)
  || ((!(item.solution2 == "")) && includes (lowerStr item.solution2) (lowerStr q))
  || includes (lowerStr item.category) (lowerStr q)

/-- The category arm of the standard filter (page.tsx lines 56-57). -/
def matchesCategory (selectedCategory : String) (item : FeedbackEntry) : Bool :=
  selectedCategory == "All" || item.category == selectedCategory

/-- The component state of `Home` (page.tsx) that retrieval and the AI
search read: the fetched corpus, the search input value, the selected
category facet, the held AI ranking result (`null` embeds as `none`; an
empty array is `some []` and, being truthy in JS, is held), and the
loading flag `isAiSearching`. -/
structure UIState where
  data : List FeedbackEntry
  searchQuery : String
  selectedCategory : String
  aiAnalysisResults : Option (List FeedbackEntry)
  isAiSearching : Bool
deriving DecidableEq, Repr

/-- The retrieval facade `filteredData` (page.tsx lines 48-65): a held AI
result (truthy, which includes the empty array) is returned verbatim;
otherwise the corpus is filtered by the category facet and the substring
search. -/
def filteredData (s : UIState) : List FeedbackEntry :=
  match s.aiAnalysisResults with
  | some r => r
  | none =>
    s.data.filter (fun item =>
      matchesCategory s.selectedCategory item && matchesSearch s.searchQuery item)

/-- Whether a run of `handleAiSearch` proceeds past its guard
(page.tsx line 86): it returns early iff the trimmed query is empty; it
does not consult `isAiSearching`. -/
def handleAiSearchFires (s : UIState) : Bool :=
  !(trimChars s.searchQuery.data).isEmpty

/-- The user actions the single-flight claim is about: clicking the AI
search button, and a keydown in the search input carrying the given key
value. -/
inductive UIEvent where
  | clickAiButton
  | keyDownSearch (key : String)
deriving DecidableEq, Repr

/-- Whether the event initiates a ranking request in state `s`.  The
button carries `disabled=(isAiSearching)` (page.tsx line 201), so its
click handler cannot run while loading; the input's `onKeyDown`
(line 188) calls `handleAiSearch` whenever the key is Enter, with no
loading-flag gate, so the request is initiated iff the handler's own
trimmed-query guard passes. -/
def initiatesRequest (s : UIState) (e : UIEvent) : Bool :=
  match e with
  | .clickAiButton => !s.isAiSearching && handleAiSearchFires s
  | .keyDownSearch key => (key == "Enter") && handleAiSearchFires s

/-- Writes a normalized entry back into the CSV columns the GET mapping
reads: `category` under 대분류, `problem` under 문제점, `solution1` under
솔루션 (버전1), `solution2` under 솔루션 (버전2); the legacy 솔루션 column
is absent. -/
def toRawRow (e : FeedbackEntry) : RawRow :=
  { daebunryu := e.category
    munjejeom := e.problem
    solutionV1 := e.solution1
    solutionLegacy := ""
    solutionV2 := e.solution2 }

/-- A well-formed sample CSV row. -/
def sampleRow : RawRow :=
  { daebunryu := "Programming"
    munjejeom := "problem text"
    solutionV1 := "solution text"
    solutionLegacy := ""
    solutionV2 := "" }

/-- A sample normalized entry carrying id `n`. -/
def sampleEntry (n : Nat) : FeedbackEntry :=
  { id := some n
    category := "Programming"
    problem := "problem text"
    solution1 := "solution text"
    solution2 := "" }

/-- A three-entry corpus with ids 1, 2 and 3. -/
def corpus123 : List FeedbackEntry :=
  [sampleEntry 1, sampleEntry 2, sampleEntry 3]

/-- A UI state in the middle of an AI search: loading flag set, a
non-whitespace query in the input, no held result. -/
def loadingState : UIState :=
  { data := []
    searchQuery := "hello"
    selectedCategory := "All"
    aiAnalysisResults := none
    isAiSearching := true }

/-- A UI state whose search input holds a single space. -/
def spaceQueryState : UIState :=
  { data := []
    searchQuery := " "
    selectedCategory := "All"
    aiAnalysisResults := none
    isAiSearching := false }

lemma sortedData_nil (ids : List Int) : sortedData ids [] = [] := by
  induction ids with
  | nil => rfl
  | cons i ids ih =>
    simp only [sortedData, List.filterMap_cons, List.find?_nil]
    exact ih

/-- Claim C1: whenever an AI ranking result is held (non-null, including the
empty sequence), the retrieval facade returns exactly that result, with
neither the category facet nor the substring filter reapplied. -/
theorem held_ai_result_is_display_list (s : UIState) (r : List FeedbackEntry)
    (h : s.aiAnalysisResults = some r) : filteredData s = r := by
  simp [filteredData, h]

theorem held_ai_result_is_display_list_witness :
    filteredData
      { data := [sampleEntry 0]
        searchQuery := ""
        selectedCategory := "Programming"
        aiAnalysisResults := some []
        isAiSearching := false } = [] :=
  held_ai_result_is_display_list _ [] rfl

/-- Claim C2 counterexample: on an empty corpus the POST handler still invokes
the external ranking service (the call flag is `true`): the claimed
zero-call guard clause does not exist in the code. -/
theorem rank_empty_corpus_counterexample :
    postHandlerT "anything" true (some []) (some "[]") = (PostResponse.ok [], true) := by
  decide

/-- Claim C2 amended: on an empty corpus the POST handler still invokes the
external service, and for any service response that parses as an id
array the returned ranking is the empty sequence, since no id can match
an empty corpus. -/
theorem rank_empty_corpus_calls_service (q : String) (hq : q ≠ "")
    (txt : String) (ids : List Int)
    (hp : parseIntArray (cleanText txt) = some ids) :
    postHandlerT q true (some []) (some txt) = (PostResponse.ok [], true) := by
  have hq' : (q == "") = false := by simp [hq]
  simp [postHandlerT, hq', hp, normalizePost, sortedData_nil]

theorem rank_empty_corpus_calls_service_witness :
    postHandlerT "x" true (some []) (some "[7]") = (PostResponse.ok [], true) :=
  rank_empty_corpus_calls_service "x" (by decide) "[7]" [7] (by decide)

/-- Claim C7: in a state with the loading flag set and a non-whitespace query,
a keydown of Enter in the search input still initiates a ranking request
(the `onKeyDown` handler and `handleAiSearch` never consult
`isAiSearching`), while the disabled button does not: the single-flight
gate is bypassed by the Enter key. -/
theorem enter_key_bypasses_loading_gate :
    loadingState.isAiSearching = true
    ∧ initiatesRequest loadingState (UIEvent.keyDownSearch "Enter") = true
    ∧ initiatesRequest loadingState UIEvent.clickAiButton = false := by
  decide

/-- Claim C8: sanitization strips the language-tagged fence, the bare closing
fence and surrounding whitespace, and a bare leading literal "json"; the
fenced response parses to the id array, and ranking a corpus with ids
1, 2 and 3 by it returns those entries in the order 3, 1, 2. -/
theorem fenced_response_sanitized_and_ranked :
    cleanText "```json\n[3,1,2]\n```" = "[3,1,2]"
    ∧ cleanText "json\n[3,1,2]" = "[3,1,2]"
    ∧ parseIntArray "[3,1,2]" = some [3, 1, 2]
    ∧ sortedData [3, 1, 2] corpus123 = [sampleEntry 3, sampleEntry 1, sampleEntry 2] := by
  decide

/-- Claim C4: every entry surviving normalization, on the GET listing path or
the POST ranking path, has a non-empty problem and at least one
non-empty solution; rows failing the predicate never appear in the
output (so they are silently dropped by the filter). -/
theorem normalized_entries_wellformed (rows : List RawRow) (e : FeedbackEntry)
    (h : e ∈ normalizeGet rows ∨ e ∈ normalizePost rows) :
    e.problem ≠ "" ∧ (e.solution1 ≠ "" ∨ e.solution2 ≠ "") := by
  have hk : keep e = true := by
    cases h with
    | inl h => exact (List.mem_filter.mp h).2
    | inr h => exact (List.mem_filter.mp h).2
  simpa [keep] using hk

theorem normalized_entries_wellformed_witness :
    (normalizeRowGet sampleRow).problem ≠ ""
    ∧ ((normalizeRowGet sampleRow).solution1 ≠ ""
        ∨ (normalizeRowGet sampleRow).solution2 ≠ "") :=
  normalized_entries_wellformed [sampleRow] (normalizeRowGet sampleRow)
    (Or.inl (by decide))

/-- Claim C5 counterexample: the GET listing path produces entries with no id
at all, so the sole entry normalized from a well-formed row does not
carry id 0 (its raw ordinal), contradicting the claim for the GET
corpus listing. -/
theorem get_listing_has_no_ids :
    (normalizeGet [sampleRow]).length = 1
    ∧ (normalizeGet [sampleRow]).map (fun e => e.id) = [none]
    ∧ ((none : Option Nat) = some 0 → False) := by
  decide

/-- Claim C5 amended: on the POST ranking path every normalized entry's id is
the ordinal index of its row in the raw pre-filter sequence (so ids are
unique and keep their gaps after filtering), while the GET listing path
attaches no id to its entries. -/
theorem post_ids_are_raw_ordinals (rows : List RawRow) :
    (∀ e ∈ normalizePost rows,
      ∃ k r, rows[k]? = some r ∧ e = normalizeRowPost k r ∧ e.id = some k)
    ∧ ((normalizePost rows).map (fun e => e.id)).Nodup
    ∧ (∀ e ∈ normalizeGet rows, e.id = none) := by
  refine ⟨?_, ?_, ?_⟩
  · intro e he
    have hm : e ∈ rows.enum.map (fun p => normalizeRowPost p.1 p.2) :=
      List.mem_of_mem_filter he
    obtain ⟨p, hp, hpe⟩ := List.mem_map.mp hm
    exact ⟨p.1, p.2, List.mem_enum_iff_getElem?.mp hp, hpe.symm, by rw [← hpe]; rfl⟩
  · have h1 : List.Sublist (normalizePost rows)
        (rows.enum.map (fun p => normalizeRowPost p.1 p.2)) :=
      List.filter_sublist _
    have h2 := h1.map (fun e => e.id)
    have h3 : (rows.enum.map (fun p => normalizeRowPost p.1 p.2)).map (fun e => e.id)
        = (rows.enum.map Prod.fst).map some := by
      rw [List.map_map, List.map_map]
      rfl
    have h4 : ((rows.enum.map Prod.fst).map some).Nodup :=
      (List.nodup_enum_map_fst rows).map (Option.some_injective _)
    rw [h3] at h2
    exact h4.sublist h2
  · intro e he
    have hm : e ∈ rows.map normalizeRowGet := List.mem_of_mem_filter he
    obtain ⟨r, _, hre⟩ := List.mem_map.mp hm
    rw [← hre]; rfl

theorem post_ids_are_raw_ordinals_witness :
    ∃ k r, [sampleRow][k]? = some r
      ∧ normalizeRowPost 0 sampleRow = normalizeRowPost k r
      ∧ (normalizeRowPost 0 sampleRow).id = some k :=
  (post_ids_are_raw_ordinals [sampleRow]).1 (normalizeRowPost 0 sampleRow) (by decide)

/-- Claim C3 counterexample: a service response of six repeated ids parses as
a JSON integer array, yet the resulting ranking repeats the single
corpus entry six times: length 6 exceeds the claimed bound of 5 and the
output has duplicates. -/
theorem ranked_length_nodup_counterexample :
    parseIntArray "[0,0,0,0,0,0]" = some [0, 0, 0, 0, 0, 0]
    ∧ ¬ (sortedData [0, 0, 0, 0, 0, 0] [sampleEntry 0]).length ≤ 5
    ∧ ¬ (sortedData [0, 0, 0, 0, 0, 0] [sampleEntry 0]).Nodup := by
  decide

/-- Claim C3 amended: the ranking output is always drawn from the corpus and
never longer than the parsed id array; the claimed bound of 5 and
freedom from duplicates hold exactly when the service returns at most 5
ids, respectively pairwise-distinct ids. -/
theorem ranked_drawn_from_corpus_bounded (ids : List Int) (data : List FeedbackEntry) :
    (∀ e ∈ sortedData ids data, e ∈ data)
    ∧ (sortedData ids data).length ≤ ids.length
    ∧ (ids.length ≤ 5 → (sortedData ids data).length ≤ 5)
    ∧ (ids.Nodup → (sortedData ids data).Nodup) := by
  refine ⟨?_, ?_, ?_, ?_⟩
  · intro e he
    obtain ⟨i, _, hfind⟩ := List.mem_filterMap.mp he
    exact List.mem_of_find?_eq_some hfind
  · exact List.length_filterMap_le _ _
  · intro h5
    exact le_trans (List.length_filterMap_le _ _) h5
  · intro hnd
    refine hnd.filterMap ?_
    intro i j e hei hej
    have h1 := List.find?_some hei
    have h2 := List.find?_some hej
    unfold idMatches at h1 h2
    cases hid : e.id with
    | none => rw [hid] at h1; cases h1
    | some n =>
      rw [hid] at h1 h2
      have e1 : (n : Int) = i := by simpa using h1
      have e2 : (n : Int) = j := by simpa using h2
      rw [← e1, ← e2]

theorem ranked_drawn_from_corpus_bounded_witness :
    sampleEntry 3 ∈ corpus123
    ∧ (sortedData [3, 1, 2] corpus123).length ≤ 5
    ∧ (sortedData [3, 1, 2] corpus123).Nodup :=
  ⟨(ranked_drawn_from_corpus_bounded [3, 1, 2] corpus123).1 (sampleEntry 3) (by decide),
   (ranked_drawn_from_corpus_bounded [3, 1, 2] corpus123).2.2.1 (by decide),
   (ranked_drawn_from_corpus_bounded [3, 1, 2] corpus123).2.2.2 (by decide)⟩

lemma orElse_empty_default (x : String) : orElse x "" = x := by
  unfold orElse
  split <;> simp_all

lemma orElse_ne_empty (x d : String) (hd : d ≠ "") : orElse x d ≠ "" := by
  unfold orElse
  split <;> simp_all

lemma normalizeGet_mem_inv (rows : List RawRow) (e : FeedbackEntry)
    (he : e ∈ normalizeGet rows) :
    e.id = none ∧ e.category ≠ "" ∧ keep e = true := by
  have hk := (List.mem_filter.mp he).2
  obtain ⟨r, _, hre⟩ := List.mem_map.mp (List.mem_of_mem_filter he)
  refine ⟨by rw [← hre]; rfl, ?_, hk⟩
  rw [← hre]
  exact orElse_ne_empty _ _ (by decide)

lemma normalizeRowGet_roundtrip (e : FeedbackEntry)
    (hc : e.category ≠ "") (hid : e.id = none) :
    normalizeRowGet (toRawRow e) = e := by
  obtain ⟨i, cat, prob, s1, s2⟩ := e
  simp only at hc hid
  subst hid
  have h1 : orElse cat "기타" = cat := by
    unfold orElse
    simp [hc]
  simp [normalizeRowGet, toRawRow, orElse_empty_default, h1]

/-- Claim C6: GET normalization is idempotent: writing the normalized entries
back into the CSV columns via the same column mapping and normalizing
again returns the same sequence. -/
theorem normalizeGet_idempotent (rows : List RawRow) :
    normalizeGet ((normalizeGet rows).map toRawRow) = normalizeGet rows := by
  show (((normalizeGet rows).map toRawRow).map normalizeRowGet).filter keep
      = normalizeGet rows
  rw [List.map_map]
  have hfun : ∀ e ∈ normalizeGet rows, (normalizeRowGet ∘ toRawRow) e = id e :=
    fun e he =>
      normalizeRowGet_roundtrip e (normalizeGet_mem_inv rows e he).2.1
        (normalizeGet_mem_inv rows e he).1
  rw [List.map_congr_left hfun, List.map_id]
  exact List.filter_eq_self.mpr (fun e he => (normalizeGet_mem_inv rows e he).2.2)

/-- Claim C9 counterexample: a service response that is a JSON array of
strings parses successfully under `JSON.parse` — the "wrong shape" the
spec counts as a parse failure that must surface as an error — yet the
handler does not fail: every element matches no corpus id, `find` yields
`undefined`, `filter(Boolean)` drops them all, and the endpoint answers
with success status and the empty list, silently. -/
theorem nonint_array_silently_empty :
    parseJson (cleanText "[\"a\",\"b\"]") = some (Json.arr [Json.str "a", Json.str "b"])
    ∧ postHandlerJ "q" true (some [sampleRow]) (some "[\"a\",\"b\"]")
        = (PostResponse.ok [], true) :=
  ⟨rfl, by decide⟩

/-- Claim C9 amended: the endpoint rejects a falsy query with the client
fault; a missing credential (with a truthy query) yields the
distinguishable not-configured status; a source-fetch failure, an
external-service failure, an invalid-JSON response and a response
parsing to a non-array value all yield the generic server fault; but a
response parsing to a JSON array of any element types is not treated as
a failure: it is returned with success status, with the elements that
match no corpus id silently dropped — so a wrong-shaped array (for
example one of strings) is silently converted into the empty result. -/
theorem post_status_mapping :
    (∀ hasKey csvRows serviceText,
      postHandlerJ "" hasKey csvRows serviceText = (PostResponse.clientFault, false))
    ∧ (∀ q, q ≠ "" → ∀ csvRows serviceText,
        postHandlerJ q false csvRows serviceText = (PostResponse.notConfigured, false))
    ∧ (∀ q, q ≠ "" → ∀ serviceText,
        postHandlerJ q true none serviceText = (PostResponse.serverFault, false))
    ∧ (∀ q, q ≠ "" → ∀ rows,
        postHandlerJ q true (some rows) none = (PostResponse.serverFault, true))
    ∧ (∀ q, q ≠ "" → ∀ rows txt, parseJson (cleanText txt) = none →
        postHandlerJ q true (some rows) (some txt) = (PostResponse.serverFault, true))
    ∧ (∀ q, q ≠ "" → ∀ rows txt v, parseJson (cleanText txt) = some v →
        (∀ elems, v ≠ Json.arr elems) →
        postHandlerJ q true (some rows) (some txt) = (PostResponse.serverFault, true))
    ∧ (∀ q, q ≠ "" → ∀ rows txt elems,
        parseJson (cleanText txt) = some (Json.arr elems) →
        postHandlerJ q true (some rows) (some txt)
          = (PostResponse.ok (sortedDataJ elems (normalizePost rows)), true)) := by
  refine ⟨?_, ?_, ?_, ?_, ?_, ?_, ?_⟩
  · intro hasKey csvRows serviceText
    rfl
  · intro q hq csvRows serviceText
    simp [postHandlerJ, hq]
  · intro q hq serviceText
    simp [postHandlerJ, hq]
  · intro q hq rows
    simp [postHandlerJ, hq]
  · intro q hq rows txt hp
    simp [postHandlerJ, hq, hp]
  · intro q hq rows txt v hp hv
    cases v with
    | null => simp [postHandlerJ, hq, hp]
    | bool b => simp [postHandlerJ, hq, hp]
    | num n => simp [postHandlerJ, hq, hp]
    | str s => simp [postHandlerJ, hq, hp]
    | arr elems => exact absurd rfl (hv elems)
    | obj members => simp [postHandlerJ, hq, hp]
  · intro q hq rows txt elems hp
    simp [postHandlerJ, hq, hp]

theorem post_status_mapping_witness :
    postHandlerJ "" true (some []) (some "[]") = (PostResponse.clientFault, false)
    ∧ postHandlerJ "q" false (some []) (some "[]") = (PostResponse.notConfigured, false)
    ∧ postHandlerJ "q" true none (some "[]") = (PostResponse.serverFault, false)
    ∧ postHandlerJ "q" true (some []) none = (PostResponse.serverFault, true)
    ∧ postHandlerJ "q" true (some []) (some "oops") = (PostResponse.serverFault, true)
    ∧ postHandlerJ "q" true (some []) (some "true") = (PostResponse.serverFault, true)
    ∧ postHandlerJ "q" true (some []) (some "[\"a\"]")
        = (PostResponse.ok (sortedDataJ [Json.str "a"] (normalizePost [])), true) :=
  ⟨post_status_mapping.1 true (some []) (some "[]"),
   post_status_mapping.2.1 "q" (by decide) (some []) (some "[]"),
   post_status_mapping.2.2.1 "q" (by decide) (some "[]"),
   post_status_mapping.2.2.2.1 "q" (by decide) [],
   post_status_mapping.2.2.2.2.1 "q" (by decide) [] "oops" (by rfl),
   post_status_mapping.2.2.2.2.2.1 "q" (by decide) [] "true" (Json.bool true)
     (by rfl) (fun elems h => Json.noConfusion h),
   post_status_mapping.2.2.2.2.2.2 "q" (by decide) [] "[\"a\"]" [Json.str "a"] (by rfl)⟩

/-- Claim C10: a query of a single space is truthy for the handler's untrimmed
emptiness check, so it is not rejected as a client fault: with the
credential missing it reaches the not-configured check, and with the
credential present the full pipeline runs and the external service is
invoked; only the presentation-layer facade guard trims, and it refuses
to send the request at all. -/
theorem whitespace_query_not_rejected :
    (∀ hasKey csvRows serviceText,
      (postHandler " " hasKey csvRows serviceText == PostResponse.clientFault) = false)
    ∧ (∀ csvRows serviceText,
        postHandler " " false csvRows serviceText = PostResponse.notConfigured)
    ∧ (∀ rows txt, (postHandlerT " " true (some rows) (some txt)).2 = true)
    ∧ handleAiSearchFires spaceQueryState = false := by
  refine ⟨?_, ?_, ?_, by decide⟩
  · intro hasKey csvRows serviceText
    cases hasKey with
    | false => rfl
    | true =>
      cases csvRows with
      | none => rfl
      | some rows =>
        cases serviceText with
        | none => rfl
        | some txt =>
          simp only [postHandler, postHandlerT]
          cases parseIntArray (cleanText txt) <;> rfl
  · intro csvRows serviceText
    rfl
  · intro rows txt
    simp only [postHandlerT]
    cases parseIntArray (cleanText txt) <;> rfl

end FeedbackEnc
